import Mathlib

/-!
Shallow embedding of the connection lifecycle component in
src/src/components/ChatRoom.jsx: the published status and attempt counter,
the WebSocket event handlers installed by connect, the retry scheduler
(exponential backoff with jitter), the inbound message admission filter,
the outbound send guard, and the endpoint resolution.

Modelling choices:
- JavaScript numbers that carry delays and jitter are modelled as rationals;
  the jitter value Math.random() times 300 becomes an explicit parameter j
  with 0 <= j < 300.
- JSON.parse is modelled by an (Option Json) input to the message handler:
  none means the parse threw, some d is the parsed structured value.
- Timers: the runtime's outstanding timeouts are a list of (id, delay)
  pairs; setTimeout appends a fresh id, clearTimeout removes by id.  The
  component's retryTimeoutRef is the retryTimeout field.
- WebSocket handles are numbered; socks maps each created handle id to its
  readyState (0 connecting, 1 open, 2 closing, 3 closed).  wsCurrent is
  wsRef.current.  Event handlers close over their own handle, so an event
  on a stale handle still runs the handler body exactly as written.
-/

namespace ChatRoom

/-- Published connection status: the values taken by the status state. -/
inductive Status
  | connecting
  | connected
  | disconnected
  | error
deriving DecidableEq

/-- Structured values produced by JSON.parse. -/
inductive Json
  | null
  | bool (b : Bool)
  | num (q : ℚ)
  | str (s : String)
  | arr (elems : List Json)
  | obj (fields : List (String × Json))

/-- JavaScript truthiness of a parsed JSON value. -/
def Json.truthy : Json → Bool
  | .null => false
  | .bool b => b
  | .num q => decide (q ≠ 0)
  | .str s => s != ""
  | .arr _ => true
  | .obj _ => true

/-- Property access d.k: some value on an object with the field, none
(undefined) otherwise. -/
def Json.getField : Json → String → Option Json
  | .obj fields, k => (fields.find? (fun p => p.1 == k)).map Prod.snd
  | _, _ => none

/-- The comparison data.type === t for a string literal t. -/
def Json.typeIs (d : Json) (t : String) : Bool :=
  match d.getField "type" with
  | some (Json.str v) => v == t
  | _ => false

/-- The admission test of ws.onmessage on a successfully parsed value:
data && (data.type === "message" || data.type === "system"). -/
def admitJson (d : Json) : Bool :=
  d.truthy && (d.typeIs "message" || d.typeIs "system")

/-- Admission of a raw inbound payload; none models a JSON.parse throw,
which the surrounding try/catch silently swallows. -/
def admitFrame : Option Json → Bool
  | none => false
  | some d => admitJson d

/-- The subsequence of a list of raw payloads that the filter admits,
in arrival order. -/
def admitted (raws : List (Option Json)) : List Json :=
  raws.filterMap (fun r =>
    match r with
    | some d => if admitJson d then some d else none
    | none => none)

/-- The component state: React state (messages, status, attempt), the refs
(wsRef, retryTimeoutRef, manualCloseRef), the runtime's created sockets and
outstanding timers, fresh-id counters, and the resolved endpoint url. -/
structure CState where
  messages : List Json
  status : Status
  attempt : Nat
  wsCurrent : Option Nat
  socks : List (Nat × Nat)
  retryTimeout : Option Nat
  manualClose : Bool
  timers : List (Nat × ℚ)
  nextHandle : Nat
  nextTimer : Nat
  url : String
  created : List String

/-- State at first render: useState initial values, null refs, no sockets,
no timers. -/
def initState (u : String) : CState :=
  { messages := [], status := Status.connecting, attempt := 0,
    wsCurrent := none, socks := [], retryTimeout := none,
    manualClose := false, timers := [], nextHandle := 0, nextTimer := 0,
    url := u, created := [] }

/-- clearTimeout t against the runtime's outstanding timers: removes the
timer with that id; removing an absent or already-fired id leaves the list
unchanged and never fails. -/
def clearTimeoutOn (timers : List (Nat × ℚ)) (t : Nat) : List (Nat × ℚ) :=
  timers.filter (fun p => p.1 != t)

/-- The guarded cancel idiom if (retryTimeoutRef.current)
clearTimeout(retryTimeoutRef.current): the outstanding timers left after
it. -/
def clearPending (s : CState) : List (Nat × ℚ) :=
  match s.retryTimeout with
  | some t => clearTimeoutOn s.timers t
  | none => s.timers

/-- The scheduling idiom of the source: if (retryTimeoutRef.current)
clearTimeout(retryTimeoutRef.current); retryTimeoutRef.current =
setTimeout(connect, d). -/
def schedule (s : CState) (d : ℚ) : CState :=
  { s with timers := clearPending s ++ [(s.nextTimer, d)],
           retryTimeout := some s.nextTimer,
           nextTimer := s.nextTimer + 1 }

/-- Math.min(10000, 500 * Math.pow(2, prev)): the capped exponential base
delay. -/
def baseDelay (prev : Nat) : ℚ := min 10000 (500 * 2 ^ prev)

/-- Math.max(300, baseDelay + jitter): the delay passed to setTimeout on
the close-triggered retry path. -/
def computeDelay (prev : Nat) (jitter : ℚ) : ℚ :=
  max 300 (baseDelay prev + jitter)

/-- Mean of computeDelay prev j over the uniform jitter j in [0, 300). -/
def expectedDelay (prev : Nat) : ℚ := baseDelay prev + 150

/-- readyState of handle h among the created sockets, none if no such
handle was created. -/
def readyOf? (s : CState) (h : Nat) : Option Nat :=
  (s.socks.find? (fun p => p.1 == h)).map Prod.snd

/-- Overwrite the readyState of handle h. -/
def setSock (s : CState) (h n : Nat) : CState :=
  { s with socks := s.socks.map (fun p => if p.1 = h then (p.1, n) else p) }

/-- Body of connect(): new WebSocket(wsUrl) either succeeds, installing the
fresh handle in wsRef.current, or throws synchronously, in which case the
catch block sets status error and schedules a retry at the fixed 1000ms
fallback delay. -/
def connect (fail : Bool) (s : CState) : CState :=
  if fail then
    schedule { s with status := Status.error } 1000
  else
    { s with socks := s.socks ++ [(s.nextHandle, 0)],
             wsCurrent := some s.nextHandle,
             nextHandle := s.nextHandle + 1,
             created := s.created ++ [s.url] }

/-- ws.onopen: setStatus("connected"); setAttempt(0). -/
def onOpen (s : CState) : CState :=
  { s with status := Status.connected, attempt := 0 }

/-- ws.onmessage: parse, admit, append; parse failures and inadmissible
frames leave the state untouched. -/
def onMessage (raw : Option Json) (s : CState) : CState :=
  match raw with
  | none => s
  | some d => if admitJson d then { s with messages := s.messages ++ [d] } else s

/-- ws.onerror: setStatus("error"). -/
def onError (s : CState) : CState :=
  { s with status := Status.error }

/-- ws.onclose: wsRef.current = null; early return when manualCloseRef is
set; otherwise publish disconnected, increment attempt, and schedule the
backoff retry computed from the attempt value before the increment. -/
def onClose (j : ℚ) (s : CState) : CState :=
  let s1 := { s with wsCurrent := none }
  if s1.manualClose then s1
  else
    schedule { s1 with status := Status.disconnected, attempt := s1.attempt + 1 }
      (computeDelay s1.attempt j)

/-- The cleanup function returned by the mount effect: set
manualCloseRef.current = true, cancel a pending retry timeout, and close
the current socket only when its readyState is 1 (open). -/
def stopCleanup (s : CState) : CState :=
  let s1 := { s with manualClose := true }
  let s2 := { s1 with timers := clearPending s1 }
  match s2.wsCurrent with
  | some h => if readyOf? s2 h = some 1 then setSock s2 h 2 else s2
  | none => s2

/-- External events driving the component: the mount effect (start), its
cleanup (stop), the four transport events on a given handle, and the fire
of a scheduled timeout whose callback is connect.  start and timerFire
carry whether the WebSocket constructor throws; closeEv carries the jitter
sample used if a retry is scheduled. -/
inductive Ev
  | start (fail : Bool)
  | stop
  | openEv (h : Nat)
  | messageEv (h : Nat) (raw : Option Json)
  | errorEv (h : Nat)
  | closeEv (h : Nat) (j : ℚ)
  | timerFire (t : Nat) (fail : Bool)

/-- One step of the component.  The transport-event cases first record the
handle's new readyState and then run the handler exactly as the source
writes it; no handler compares the firing handle with wsRef.current. -/
def step (s : CState) : Ev → CState
  | Ev.start fail =>
      connect fail { s with manualClose := false, status := Status.connecting }
  | Ev.stop => stopCleanup s
  | Ev.openEv h => onOpen (setSock s h 1)
  | Ev.messageEv _ raw => onMessage raw s
  | Ev.errorEv h => onError (setSock s h 2)
  | Ev.closeEv h j => onClose j (setSock s h 3)
  | Ev.timerFire t fail =>
      connect fail { s with timers := clearTimeoutOn s.timers t }

/-- Run a sequence of events. -/
def run (s : CState) : List Ev → CState
  | [] => s
  | e :: es => run (step s e) es

/-- Whether an event can actually fire in a state: transport events require
the handle to exist in the matching readyState, a timer fire requires the
timeout to be outstanding, and jitter samples lie in [0, 300). -/
def fireable (s : CState) : Ev → Bool
  | Ev.start _ => true
  | Ev.stop => true
  | Ev.openEv h => readyOf? s h == some 0
  | Ev.messageEv h _ => readyOf? s h == some 1
  | Ev.errorEv h => readyOf? s h == some 0 || readyOf? s h == some 1
  | Ev.closeEv h j =>
      (readyOf? s h == some 0 || readyOf? s h == some 1 || readyOf? s h == some 2)
        && decide (0 ≤ j) && decide (j < 300)
  | Ev.timerFire t _ => s.timers.any (fun p => p.1 == t)

/-- A whole event sequence is fireable from a state. -/
def traceOK (s : CState) : List Ev → Bool
  | [] => true
  | e :: es => fireable s e && traceOK (step s e) es

/-- input.trim(): surrounding whitespace removed, phrased over the
character list so that it evaluates by reduction. -/
def jsTrim (s : String) : String :=
  String.mk (((s.data.dropWhile Char.isWhitespace).reverse.dropWhile
    Char.isWhitespace).reverse)

/-- The send handler: const text = input.trim(); if (!text ||
!wsRef.current || wsRef.current.readyState !== 1) return; otherwise write
exactly one frame.  some frame is the single transport call made on
success; none is the silent early return with no transport call. -/
def sendResult (s : CState) (input : String) : Option Json :=
  let text := jsTrim input
  if text = "" then none
  else
    match s.wsCurrent with
    | none => none
    | some h =>
        if readyOf? s h = some 1 then
          some (Json.obj [("type", Json.str "message"), ("text", Json.str text)])
        else none

/-- base.replace(slash-at-end regex, ""): strips one trailing slash.
Phrased over the character list so that it evaluates by reduction. -/
def stripTrailingSlash (s : String) : String :=
  if s.data.getLast? = some '/' then String.mk s.data.dropLast else s

/-- base.replace(anchored http regex, "ws"): rewrites a leading http to ws,
so https becomes wss.  Phrased over the character list so that it
evaluates by reduction. -/
def httpToWs (s : String) : String :=
  if s.data.take 4 = ['h', 't', 't', 'p'] then String.mk ('w' :: 's' :: s.data.drop 4)
  else s

/-- The wsUrl useMemo body: strip a trailing slash from the configured
backend url, fall back to the window origin when the result is empty,
rewrite the scheme, append /ws. -/
def wsUrl (backendUrl origin : String) : String :=
  let base := stripTrailingSlash backendUrl
  let base2 := if base = "" then httpToWs origin else httpToWs base
  base2 ++ "/ws"

/-- At most one outstanding retry timer, and the retryTimeoutRef names it. -/
def TimerInv (s : CState) : Prop :=
  s.timers.length ≤ 1 ∧ ∀ p ∈ s.timers, s.retryTimeout = some p.1


theorem clearTimeoutOn_noop (l : List (Nat × ℚ)) (t : Nat)
    (h : ∀ p ∈ l, p.1 ≠ t) : clearTimeoutOn l t = l := by
  unfold clearTimeoutOn
  refine List.filter_eq_self.mpr ?_
  intro p hp
  simp [h p hp]

theorem clearTimeoutOn_all (l : List (Nat × ℚ)) (t : Nat)
    (h : ∀ p ∈ l, p.1 = t) : clearTimeoutOn l t = [] := by
  unfold clearTimeoutOn
  refine List.filter_eq_nil_iff.mpr ?_
  intro p hp
  simp [h p hp]

theorem clearPending_nil_of_cover (s : CState)
    (hcov : ∀ p ∈ s.timers, s.retryTimeout = some p.1) :
    clearPending s = [] := by
  unfold clearPending
  cases hrt : s.retryTimeout with
  | none =>
      cases hts : s.timers with
      | nil => rfl
      | cons p ps =>
          have := hcov p (by rw [hts]; exact List.mem_cons_self p ps)
          rw [hrt] at this
          exact absurd this (by simp)
  | some t =>
      refine clearTimeoutOn_all _ _ ?_
      intro p hp
      have := hcov p hp
      rw [hrt] at this
      injection this with hh
      exact hh.symm

theorem schedule_timers_of_cover (s : CState) (d : ℚ)
    (hcov : ∀ p ∈ s.timers, s.retryTimeout = some p.1) :
    (schedule s d).timers = [(s.nextTimer, d)] := by
  unfold schedule
  simp [clearPending_nil_of_cover s hcov]

theorem stopCleanup_fields (s : CState) :
    (stopCleanup s).status = s.status
  ∧ (stopCleanup s).attempt = s.attempt
  ∧ (stopCleanup s).manualClose = true
  ∧ (stopCleanup s).timers = clearPending { s with manualClose := true }
  ∧ (stopCleanup s).retryTimeout = s.retryTimeout
  ∧ (stopCleanup s).messages = s.messages
  ∧ (stopCleanup s).url = s.url
  ∧ (stopCleanup s).created = s.created
  ∧ (stopCleanup s).wsCurrent = s.wsCurrent
  ∧ (stopCleanup s).nextTimer = s.nextTimer := by
  unfold stopCleanup
  cases s.wsCurrent with
  | none => simp
  | some h =>
      dsimp only
      split <;> simp [setSock]



theorem timerInv_schedule (s : CState) (d : ℚ) (hcov : ∀ p ∈ s.timers, s.retryTimeout = some p.1) :
    TimerInv (schedule s d) := by
  constructor
  · rw [schedule_timers_of_cover s d hcov]
    simp
  · rw [schedule_timers_of_cover s d hcov]
    intro p hp
    simp at hp
    simp [schedule, hp]

theorem timerInv_clear (s : CState) (t : Nat) (hinv : TimerInv s) :
    TimerInv { s with timers := clearTimeoutOn s.timers t } := by
  obtain ⟨hlen, hcov⟩ := hinv
  constructor
  · exact le_trans (List.length_filter_le _ _) hlen
  · intro p hp
    exact hcov p (List.mem_of_mem_filter hp)

theorem timerInv_connect (fail : Bool) (s : CState) (hinv : TimerInv s) :
    TimerInv (connect fail s) := by
  cases fail with
  | true =>
      simp only [connect, if_pos]
      exact timerInv_schedule _ _ hinv.2
  | false =>
      simp only [connect, if_neg]
      exact ⟨hinv.1, hinv.2⟩

theorem timerInv_step (s : CState) (e : Ev) (hinv : TimerInv s) : TimerInv (step s e) := by
  cases e with
  | start fail =>
      exact timerInv_connect fail _ ⟨hinv.1, hinv.2⟩
  | stop =>
      obtain ⟨h1, h2, h3, h4, h5, _⟩ := stopCleanup_fields s
      simp only [step]
      constructor
      · rw [h4, clearPending_nil_of_cover { s with manualClose := true } hinv.2]
        simp
      · rw [h4, clearPending_nil_of_cover { s with manualClose := true } hinv.2]
        intro p hp
        exact absurd hp (List.not_mem_nil p)
  | openEv h => exact ⟨hinv.1, hinv.2⟩
  | messageEv h raw =>
      cases raw with
      | none => exact ⟨hinv.1, hinv.2⟩
      | some d =>
          by_cases hd : admitJson d = true
          · simp only [step, onMessage, if_pos hd]
            exact ⟨hinv.1, hinv.2⟩
          · simp only [step, onMessage, if_neg hd]
            exact hinv
  | errorEv h => exact ⟨hinv.1, hinv.2⟩
  | closeEv h j =>
      simp only [step, onClose]
      split
      · exact ⟨hinv.1, hinv.2⟩
      · exact timerInv_schedule _ _ hinv.2
  | timerFire t fail =>
      exact timerInv_connect fail _ (timerInv_clear s t hinv)



theorem timerInv_init (u : String) : TimerInv (initState u) := by
  constructor
  · simp [initState]
  · intro p hp
    exact absurd hp (List.not_mem_nil p)

theorem timerInv_run (s : CState) (es : List Ev) (hinv : TimerInv s) :
    TimerInv (run s es) := by
  induction es generalizing s with
  | nil => exact hinv
  | cons e es ih => exact ih (step s e) (timerInv_step s e hinv)

theorem step_url (s : CState) (e : Ev) : (step s e).url = s.url := by
  cases e with
  | start fail => cases fail <;> simp [step, connect, schedule]
  | stop => exact (stopCleanup_fields s).2.2.2.2.2.2.1
  | openEv h => simp [step, onOpen, setSock]
  | messageEv h raw =>
      cases raw with
      | none => rfl
      | some d =>
          by_cases hd : admitJson d = true <;> simp [step, onMessage, hd]
  | errorEv h => simp [step, onError, setSock]
  | closeEv h j =>
      simp only [step, onClose]
      split <;> simp [schedule, setSock]
  | timerFire t fail => cases fail <;> simp [step, connect, schedule]

theorem step_created (s : CState) (e : Ev) (v : String) (hv : v ∈ (step s e).created) :
    v ∈ s.created ∨ v = s.url := by
  cases e with
  | start fail =>
      cases fail with
      | true =>
          simp [step, connect, schedule] at hv
          exact Or.inl hv
      | false =>
          simp [step, connect] at hv
          rcases hv with hv | hv
          · exact Or.inl hv
          · exact Or.inr hv
  | stop =>
      simp only [step] at hv
      rw [(stopCleanup_fields s).2.2.2.2.2.2.2.1] at hv
      exact Or.inl hv
  | openEv h =>
      simp [step, onOpen, setSock] at hv
      exact Or.inl hv
  | messageEv h raw =>
      cases raw with
      | none => exact Or.inl hv
      | some d =>
          by_cases hd : admitJson d = true <;> simp [step, onMessage, hd] at hv <;> exact Or.inl hv
  | errorEv h =>
      simp [step, onError, setSock] at hv
      exact Or.inl hv
  | closeEv h j =>
      simp only [step, onClose] at hv
      rcases (by split at hv <;> simp [schedule, setSock] at hv <;> exact hv : v ∈ s.created) with hv2
      exact Or.inl hv2
  | timerFire t fail =>
      cases fail with
      | true =>
          simp [step, connect, schedule] at hv
          exact Or.inl hv
      | false =>
          simp [step, connect] at hv
          rcases hv with hv | hv
          · exact Or.inl hv
          · exact Or.inr hv

theorem run_url (s : CState) (es : List Ev) : (run s es).url = s.url := by
  induction es generalizing s with
  | nil => rfl
  | cons e es ih => rw [run, ih, step_url]

theorem run_created (s : CState) (es : List Ev)
    (hc : ∀ v ∈ s.created, v = s.url) :
    ∀ v ∈ (run s es).created, v = s.url := by
  induction es generalizing s with
  | nil => exact hc
  | cons e es ih =>
      intro v hv
      have hstep : ∀ w ∈ (step s e).created, w = (step s e).url := by
        intro w hw
        rw [step_url]
        rcases step_created s e w hw with h | h
        · exact hc w h
        · exact h
      have := ih (step s e) hstep v hv
      rw [step_url] at this
      exact this



theorem truthy_of_getField (d : Json) (k : String) (v : Json)
    (h : d.getField k = some v) : d.truthy = true := by
  cases d <;> simp [Json.getField] at h
  rfl

theorem typeIs_iff (d : Json) (t : String) :
    d.typeIs t = true ↔ d.getField "type" = some (Json.str t) := by
  unfold Json.typeIs
  cases hg : d.getField "type" with
  | none => simp
  | some v =>
      cases v with
      | str w => simp [beq_iff_eq]
      | null => simp
      | bool b => simp
      | num q => simp
      | arr xs => simp
      | obj fs => simp

theorem admitJson_iff (d : Json) :
    admitJson d = true ↔
      (d.getField "type" = some (Json.str "message")
        ∨ d.getField "type" = some (Json.str "system")) := by
  unfold admitJson
  constructor
  · intro h
    rw [Bool.and_eq_true, Bool.or_eq_true] at h
    rcases h.2 with h2 | h2
    · exact Or.inl ((typeIs_iff d "message").mp h2)
    · exact Or.inr ((typeIs_iff d "system").mp h2)
  · intro h
    rcases h with h | h
    · have ht := truthy_of_getField d "type" _ h
      rw [Bool.and_eq_true, Bool.or_eq_true]
      exact ⟨ht, Or.inl ((typeIs_iff d "message").mpr h)⟩
    · have ht := truthy_of_getField d "type" _ h
      rw [Bool.and_eq_true, Bool.or_eq_true]
      exact ⟨ht, Or.inr ((typeIs_iff d "system").mpr h)⟩

theorem admitted_cons (r : Option Json) (rs : List (Option Json)) :
    admitted (r :: rs)
      = (match r with
          | some d => if admitJson d then [d] else []
          | none => []) ++ admitted rs := by
  cases r with
  | none => simp [admitted]
  | some d =>
      by_cases hd : admitJson d = true <;> simp [admitted, hd]

theorem step_messages (s : CState) (h : Nat) (raw : Option Json) :
    (step s (Ev.messageEv h raw)).messages = s.messages ++ admitted [raw] := by
  cases raw with
  | none => simp [step, onMessage, admitted]
  | some d =>
      by_cases hd : admitJson d = true <;> simp [step, onMessage, hd, admitted]

theorem run_messages (s : CState) (h : Nat) (raws : List (Option Json)) :
    (run s (raws.map (Ev.messageEv h))).messages = s.messages ++ admitted raws := by
  induction raws generalizing s with
  | nil => simp [run, admitted]
  | cons r rs ih =>
      simp only [List.map_cons, run]
      rw [ih, step_messages, admitted_cons]
      cases r with
      | none => simp [admitted]
      | some d =>
          by_cases hd : admitJson d = true <;> simp [admitted, hd]



/-- C1 counterexample: the handlers contain no staleness check.  After
start, stop, start the first socket (handle 0, still connecting, since the
cleanup only closes sockets with readyState 1) is superseded: wsRef.current
is handle 1.  The whole event sequence is fireable, yet the stale open
event of handle 0 changes observable state, publishing status connected
where it was connecting. -/
theorem c1_counterexample :
    traceOK (initState "u") [Ev.start false, Ev.stop, Ev.start false, Ev.openEv 0] = true
  ∧ (run (initState "u") [Ev.start false, Ev.stop, Ev.start false]).wsCurrent = some 1
  ∧ (run (initState "u") [Ev.start false, Ev.stop, Ev.start false]).status = Status.connecting
  ∧ (run (initState "u") [Ev.start false, Ev.stop, Ev.start false, Ev.openEv 0]).status
      = Status.connected := by
  refine ⟨by decide, by decide, by decide, by decide⟩

/-- C1 (amended): no transport event handler checks whether the firing
handle is still wsRef.current, so events from a superseded handle are
processed exactly like events from the current one: a stale open publishes
connected and resets the attempt counter, a stale error publishes error,
and a stale close nulls wsRef.current and - when the manual flag is off -
publishes disconnected, increments the attempt counter and schedules a
retry. -/
theorem c1_stale_events_mutate_state (s : CState) (h : Nat) (j : ℚ)
    (_hstale : s.wsCurrent ≠ some h) :
    (step s (Ev.openEv h)).status = Status.connected
  ∧ (step s (Ev.openEv h)).attempt = 0
  ∧ (step s (Ev.errorEv h)).status = Status.error
  ∧ (step s (Ev.closeEv h j)).wsCurrent = none
  ∧ (s.manualClose = false →
        (step s (Ev.closeEv h j)).status = Status.disconnected
      ∧ (step s (Ev.closeEv h j)).attempt = s.attempt + 1
      ∧ (step s (Ev.closeEv h j)).retryTimeout = some s.nextTimer) := by
  refine ⟨rfl, rfl, rfl, ?_, ?_⟩
  · simp only [step, onClose]
    split <;> simp [schedule, setSock]
  · intro hm
    simp only [step, onClose, setSock]
    refine ⟨?_, ?_, ?_⟩ <;> simp [hm, schedule]

/-- Witness for c1_stale_events_mutate_state: handle 0 is stale when
wsRef.current is handle 1, yet its open event publishes connected and its
close event increments the attempt counter. -/
theorem c1_stale_events_mutate_state_witness :
    ({ initState "u" with wsCurrent := some 1 } : CState).wsCurrent ≠ some 0
  ∧ ({ initState "u" with wsCurrent := some 1 } : CState).manualClose = false
  ∧ (step { initState "u" with wsCurrent := some 1 } (Ev.openEv 0)).status = Status.connected
  ∧ (step { initState "u" with wsCurrent := some 1 } (Ev.closeEv 0 0)).attempt
      = ({ initState "u" with wsCurrent := some 1 } : CState).attempt + 1 :=
  ⟨by decide, rfl,
    (c1_stale_events_mutate_state { initState "u" with wsCurrent := some 1 } 0 0 (by decide)).1,
    ((c1_stale_events_mutate_state { initState "u" with wsCurrent := some 1 } 0 0 (by decide)).2.2.2.2
      rfl).2.1⟩

/-- C2 counterexample: start then immediate stop before the connection
completes.  The cleanup leaves the still-connecting socket unclosed (its
readyState is 0, not 1), so its eventual open event is not ignored: it
publishes status connected after stop. -/
theorem c2_counterexample :
    traceOK (initState "v") [Ev.start false, Ev.stop, Ev.openEv 0] = true
  ∧ (run (initState "v") [Ev.start false, Ev.stop]).manualClose = true
  ∧ (run (initState "v") [Ev.start false, Ev.stop]).status = Status.connecting
  ∧ (run (initState "v") [Ev.start false, Ev.stop, Ev.openEv 0]).status = Status.connected := by
  refine ⟨by decide, by decide, by decide, by decide⟩

/-- C2 (amended): stop cancels the pending retry timer and publishes no
status itself; afterwards close events are absorbed by the manual flag (no
status change, no attempt change, no timer scheduled), but open and error
events of the in-flight handle are not ignored: open still publishes
connected and resets the attempt counter, error still publishes error.
The cover hypothesis, an invariant of every reachable state, says the
retryTimeoutRef names every outstanding timer. -/
theorem c2_stop_absorbs_close_but_not_open (s : CState) (h : Nat) (j : ℚ)
    (hcov : ∀ p ∈ s.timers, s.retryTimeout = some p.1) :
    (step s Ev.stop).timers = []
  ∧ (step s Ev.stop).status = s.status
  ∧ (step s Ev.stop).manualClose = true
  ∧ (step (step s Ev.stop) (Ev.closeEv h j)).status = (step s Ev.stop).status
  ∧ (step (step s Ev.stop) (Ev.closeEv h j)).attempt = (step s Ev.stop).attempt
  ∧ (step (step s Ev.stop) (Ev.closeEv h j)).timers = []
  ∧ (step (step s Ev.stop) (Ev.openEv h)).status = Status.connected
  ∧ (step (step s Ev.stop) (Ev.openEv h)).attempt = 0
  ∧ (step (step s Ev.stop) (Ev.errorEv h)).status = Status.error := by
  obtain ⟨hst, hat, hmc, htm, hrt, _⟩ := stopCleanup_fields s
  have htimers : (stopCleanup s).timers = [] := by
    rw [htm, clearPending_nil_of_cover { s with manualClose := true } hcov]
  simp only [step]
  refine ⟨htimers, hst, hmc, ?_, ?_, ?_, rfl, rfl, rfl⟩
  · simp only [onClose, setSock]
    simp [hmc]
  · simp only [onClose, setSock]
    simp [hmc]
  · simp only [onClose, setSock]
    simp [hmc, htimers]

/-- Witness for c2_stop_absorbs_close_but_not_open at the state reached by
start from the initial state. -/
theorem c2_stop_absorbs_close_but_not_open_witness :
    (∀ p ∈ (run (initState "v") [Ev.start false]).timers,
        (run (initState "v") [Ev.start false]).retryTimeout = some p.1)
  ∧ (step (step (run (initState "v") [Ev.start false]) Ev.stop) (Ev.openEv 0)).status
      = Status.connected
  ∧ (step (step (run (initState "v") [Ev.start false]) Ev.stop) (Ev.closeEv 0 0)).status
      = (step (run (initState "v") [Ev.start false]) Ev.stop).status :=
  ⟨by decide,
    (c2_stop_absorbs_close_but_not_open (run (initState "v") [Ev.start false]) 0 0 (by decide)).2.2.2.2.2.2.1,
    (c2_stop_absorbs_close_but_not_open (run (initState "v") [Ev.start false]) 0 0 (by decide)).2.2.2.1⟩



/-- C4 counterexample: a frame whose kind is message but whose body is not
text, the parsed object with type message and text 42, is admitted and
appended to the message sequence, although the claim says a non-text body
is silently dropped. -/
theorem c4_counterexample :
    admitFrame (some (Json.obj [("type", Json.str "message"), ("text", Json.num 42)])) = true
  ∧ traceOK (initState "w") [Ev.start false, Ev.openEv 0,
      Ev.messageEv 0 (some (Json.obj [("type", Json.str "message"), ("text", Json.num 42)]))] = true
  ∧ (run (initState "w") [Ev.start false, Ev.openEv 0,
      Ev.messageEv 0 (some (Json.obj [("type", Json.str "message"), ("text", Json.num 42)]))]).messages
      = [Json.obj [("type", Json.str "message"), ("text", Json.num 42)]] :=
  ⟨rfl, rfl, rfl⟩

/-- C4 (amended): an inbound raw payload is admitted if and only if it
deserializes successfully to a value whose type field is the string
message or the string system; the text body is not inspected, so frames
with a missing or non-text body are admitted too.  Inadmissible payloads
are dropped silently - the handler changes no status, attempt or timer
state - and admitted frames are appended in arrival order. -/
theorem c4_admission (raw : Option Json) (s : CState) (h : Nat)
    (raws : List (Option Json)) :
    (admitFrame raw = true ↔ ∃ d, raw = some d ∧
        (d.getField "type" = some (Json.str "message")
          ∨ d.getField "type" = some (Json.str "system")))
  ∧ (step s (Ev.messageEv h raw)).messages = s.messages ++ admitted [raw]
  ∧ (step s (Ev.messageEv h raw)).status = s.status
  ∧ (step s (Ev.messageEv h raw)).attempt = s.attempt
  ∧ (step s (Ev.messageEv h raw)).timers = s.timers
  ∧ (step s (Ev.messageEv h raw)).retryTimeout = s.retryTimeout
  ∧ (run s (raws.map (Ev.messageEv h))).messages = s.messages ++ admitted raws := by
  refine ⟨?_, step_messages s h raw, ?_, ?_, ?_, ?_, run_messages s h raws⟩
  · cases raw with
    | none => simp [admitFrame]
    | some d =>
        simp only [admitFrame]
        rw [admitJson_iff d]
        constructor
        · intro hd
          exact ⟨d, rfl, hd⟩
        · rintro ⟨d2, hd2, hg⟩
          injection hd2 with hd2
          rw [hd2]
          exact hg
  · cases raw with
    | none => rfl
    | some d => by_cases hd : admitJson d = true <;> simp [step, onMessage, hd]
  · cases raw with
    | none => rfl
    | some d => by_cases hd : admitJson d = true <;> simp [step, onMessage, hd]
  · cases raw with
    | none => rfl
    | some d => by_cases hd : admitJson d = true <;> simp [step, onMessage, hd]
  · cases raw with
    | none => rfl
    | some d => by_cases hd : admitJson d = true <;> simp [step, onMessage, hd]

/-- C5: send fails, with no transport call, unless the trimmed input is
non-empty and the connection is Connected in the sense the code checks:
wsRef.current is a live handle with readyState 1, the transport-open
condition that the published connected status mirrors.  When both hold it
writes exactly one frame, the object with type message and the trimmed
text.  The guard is a total function: failure is the silent early return,
never a throw. -/
theorem c5_send_guard (s : CState) (input : String) :
    (sendResult s input ≠ none ↔
        (jsTrim input ≠ "" ∧ ∃ h, s.wsCurrent = some h ∧ readyOf? s h = some 1))
  ∧ (∀ h, s.wsCurrent = some h → readyOf? s h = some 1 → jsTrim input ≠ "" →
      sendResult s input
        = some (Json.obj [("type", Json.str "message"), ("text", Json.str (jsTrim input))]))
  ∧ sendResult s "" = none
  ∧ sendResult s "   " = none
  ∧ (s.wsCurrent = none → sendResult s input = none) := by
  refine ⟨?_, ?_, rfl, rfl, ?_⟩
  · unfold sendResult
    by_cases ht : jsTrim input = ""
    · simp [ht]
    · cases hws : s.wsCurrent with
      | none => simp [ht, hws]
      | some hh =>
          by_cases hr : readyOf? s hh = some 1
          · simp [ht, hws, hr]
          · simp [ht, hws, hr]
  · intro h hws hr ht
    unfold sendResult
    simp [ht, hws, hr]
  · intro hws
    unfold sendResult
    by_cases ht : jsTrim input = "" <;> simp [ht, hws]

/-- Witness for c5_send_guard: on a state whose current handle 0 is open,
sending the input with surrounding spaces writes the single trimmed frame;
and the iff is inhabited there. -/
theorem c5_send_guard_witness :
    ({ initState "u" with wsCurrent := some 0, socks := [(0, 1)] } : CState).wsCurrent = some 0
  ∧ readyOf? { initState "u" with wsCurrent := some 0, socks := [(0, 1)] } 0 = some 1
  ∧ jsTrim " hi " ≠ ""
  ∧ sendResult { initState "u" with wsCurrent := some 0, socks := [(0, 1)] } " hi "
      = some (Json.obj [("type", Json.str "message"), ("text", Json.str (jsTrim " hi "))]) :=
  ⟨rfl, rfl, by decide,
    (c5_send_guard { initState "u" with wsCurrent := some 0, socks := [(0, 1)] } " hi ").2.1
      0 rfl rfl (by decide)⟩

/-- C6: the attempt counter is a Nat; a transport open event resets it to 0
whatever its prior value; a close event with the manual flag off increments
it by exactly 1 and schedules the retry; and every step either leaves it
unchanged, resets it via an open event, or increments it by one via a close
event - so it is never decremented except by the open reset. -/
theorem c6_attempt_counter (s : CState) (e : Ev) :
    (∀ h, (step s (Ev.openEv h)).attempt = 0)
  ∧ (∀ h j, s.manualClose = false →
        (step s (Ev.closeEv h j)).attempt = s.attempt + 1
      ∧ (step s (Ev.closeEv h j)).retryTimeout = some s.nextTimer)
  ∧ ((step s e).attempt = s.attempt
      ∨ ((step s e).attempt = 0 ∧ ∃ h, e = Ev.openEv h)
      ∨ ((step s e).attempt = s.attempt + 1
          ∧ ∃ h j, e = Ev.closeEv h j ∧ s.manualClose = false)) := by
  refine ⟨fun h => rfl, ?_, ?_⟩
  · intro h j hm
    simp only [step, onClose, setSock]
    refine ⟨?_, ?_⟩ <;> simp [hm, schedule]
  · cases e with
    | start fail =>
        left
        cases fail <;> simp [step, connect, schedule]
    | stop =>
        left
        exact (stopCleanup_fields s).2.1
    | openEv h => exact Or.inr (Or.inl ⟨rfl, h, rfl⟩)
    | messageEv h raw =>
        left
        cases raw with
        | none => rfl
        | some d => by_cases hd : admitJson d = true <;> simp [step, onMessage, hd]
    | errorEv h => left; rfl
    | closeEv h j =>
        cases hm : s.manualClose with
        | true =>
            left
            simp only [step, onClose, setSock]
            simp [hm]
        | false =>
            refine Or.inr (Or.inr ⟨?_, h, j, rfl, rfl⟩)
            simp only [step, onClose, setSock]
            simp [hm, schedule]
    | timerFire t fail =>
        left
        cases fail <;> simp [step, connect, schedule]

/-- Witness for c6_attempt_counter: from a state with attempt 5 and the
manual flag off, an open event resets the counter to 0 and a close event
takes it to 6. -/
theorem c6_attempt_counter_witness :
    ({ initState "u" with attempt := 5 } : CState).manualClose = false
  ∧ (step { initState "u" with attempt := 5 } (Ev.openEv 0)).attempt = 0
  ∧ (step { initState "u" with attempt := 5 } (Ev.closeEv 0 0)).attempt
      = ({ initState "u" with attempt := 5 } : CState).attempt + 1 :=
  ⟨rfl,
    (c6_attempt_counter { initState "u" with attempt := 5 } (Ev.openEv 0)).1 0,
    ((c6_attempt_counter { initState "u" with attempt := 5 } (Ev.closeEv 0 0)).2.1 0 0 rfl).1⟩



theorem two_pow_ge_one (n : Nat) : (1 : ℚ) ≤ 2 ^ n := by
  have h : (1 : ℕ) ≤ 2 ^ n := Nat.one_le_pow n 2 (by norm_num)
  exact_mod_cast h

theorem baseDelay_ge_500 (n : Nat) : (500 : ℚ) ≤ baseDelay n := by
  unfold baseDelay
  refine le_min (by norm_num) ?_
  have := two_pow_ge_one n
  linarith

theorem baseDelay_le_10000 (n : Nat) : baseDelay n ≤ 10000 := min_le_left _ _

theorem baseDelay_mono {m n : Nat} (h : m ≤ n) : baseDelay m ≤ baseDelay n := by
  unfold baseDelay
  refine min_le_min le_rfl ?_
  have hp : (2 : ℚ) ^ m ≤ 2 ^ n := by
    have := Nat.pow_le_pow_right (by norm_num : 0 < 2) h
    exact_mod_cast this
  linarith

theorem baseDelay_sat {n : Nat} (h : 5 ≤ n) : baseDelay n = 10000 := by
  unfold baseDelay
  refine min_eq_left ?_
  have hp : (2 : ℚ) ^ 5 ≤ 2 ^ n := by
    have := Nat.pow_le_pow_right (by norm_num : 0 < 2) h
    exact_mod_cast this
  nlinarith

theorem computeDelay_eq_of_nonneg (n : Nat) (j : ℚ) (h0 : 0 ≤ j) :
    computeDelay n j = baseDelay n + j := by
  unfold computeDelay
  refine max_eq_right ?_
  have := baseDelay_ge_500 n
  linarith

/-- C3: for every attempt count n and jitter j in [0, 300), the delay the
close-triggered retry path passes to setTimeout equals
max(300, min(10000, 500 * 2 ^ n) + j); it lies in [300, 10300], is
non-decreasing in n both pointwise in j and in its uniform-jitter mean
expectedDelay, and saturates from the first n with 500 * 2 ^ n >= 10000
(n = 5); and the close handler schedules exactly this delay. -/
theorem c3_backoff_contract (n m : Nat) (j : ℚ) (s : CState) (h : Nat)
    (h0 : 0 ≤ j) (h1 : j < 300) (hmn : m ≤ n) :
    computeDelay n j = max 300 (min 10000 (500 * 2 ^ n) + j)
  ∧ 300 ≤ computeDelay n j
  ∧ computeDelay n j ≤ 10300
  ∧ computeDelay m j ≤ computeDelay n j
  ∧ expectedDelay m ≤ expectedDelay n
  ∧ computeDelay n j = expectedDelay n + (j - 150)
  ∧ (5 ≤ n → computeDelay n j = computeDelay 5 j)
  ∧ (s.manualClose = false →
      (s.nextTimer, computeDelay s.attempt j) ∈ (step s (Ev.closeEv h j)).timers) := by
  refine ⟨rfl, le_max_left _ _, ?_, ?_, ?_, ?_, ?_, ?_⟩
  · rw [computeDelay_eq_of_nonneg n j h0]
    have := baseDelay_le_10000 n
    linarith
  · rw [computeDelay_eq_of_nonneg n j h0, computeDelay_eq_of_nonneg m j h0]
    have := baseDelay_mono hmn
    linarith
  · unfold expectedDelay
    have := baseDelay_mono hmn
    linarith
  · rw [computeDelay_eq_of_nonneg n j h0]
    unfold expectedDelay
    ring
  · intro h5
    rw [computeDelay_eq_of_nonneg n j h0, computeDelay_eq_of_nonneg 5 j h0,
      baseDelay_sat h5, baseDelay_sat (le_refl 5)]
  · intro hm
    simp [step, onClose, setSock, hm, schedule]

/-- Witness for c3_backoff_contract at n = 6, m = 2, j = 70 and a concrete
post-close state. -/
theorem c3_backoff_contract_witness :
    (0 : ℚ) ≤ 70 ∧ (70 : ℚ) < 300 ∧ 2 ≤ 6
  ∧ computeDelay 2 70 ≤ computeDelay 6 70
  ∧ computeDelay 6 70 = 10070 := by
  refine ⟨by norm_num, by norm_num, by norm_num, ?_, ?_⟩
  · exact (c3_backoff_contract 6 2 70 (initState "u") 0 (by norm_num) (by norm_num)
      (by norm_num)).2.2.2.1
  · unfold computeDelay baseDelay
    norm_num

/-- C10: the 300 floor is never binding: the pre-floor quantity
min(10000, 500 * 2 ^ n) + j is at least 500 for every jitter j >= 0, so
Math.max(300, -) is the identity and the computed delay lies in
[500, 10300). -/
theorem c10_floor_never_binds (n : Nat) (j : ℚ) (h0 : 0 ≤ j) (h1 : j < 300) :
    500 ≤ min 10000 ((500 : ℚ) * 2 ^ n) + j
  ∧ computeDelay n j = min 10000 (500 * 2 ^ n) + j
  ∧ 500 ≤ computeDelay n j
  ∧ computeDelay n j < 10300 := by
  have hb5 : (500 : ℚ) ≤ baseDelay n := baseDelay_ge_500 n
  have hbX : baseDelay n ≤ 10000 := baseDelay_le_10000 n
  have he : computeDelay n j = baseDelay n + j := computeDelay_eq_of_nonneg n j h0
  have hmin : min (10000 : ℚ) (500 * 2 ^ n) = baseDelay n := rfl
  refine ⟨?_, ?_, ?_, ?_⟩
  · rw [hmin]; linarith
  · rw [hmin]; exact he
  · rw [he]; linarith
  · rw [he]; linarith

/-- Witness for c10_floor_never_binds at n = 0, j = 0. -/
theorem c10_floor_never_binds_witness :
    (0 : ℚ) ≤ 0 ∧ (0 : ℚ) < 300 ∧ computeDelay 0 0 = min 10000 (500 * 2 ^ 0) + 0 :=
  ⟨le_refl 0, by norm_num, (c10_floor_never_binds 0 0 (le_refl 0) (by norm_num)).2.1⟩



/-- C7: at most one scheduled-reconnect timer is outstanding at any
instant: the invariant TimerInv (at most one outstanding timer, named by
the retryTimeoutRef) holds in every state reachable from the initial state
and is preserved by every step, because each scheduling path first runs the
guarded clearTimeout; and cancelling an absent or already-fired timer id is
a no-op that never fails. -/
theorem c7_single_timer (u : String) (es : List Ev) (s : CState) (e : Ev)
    (hinv : TimerInv s) :
    TimerInv (run (initState u) es)
  ∧ TimerInv (step s e)
  ∧ (∀ t, (∀ p ∈ s.timers, p.1 ≠ t) → clearTimeoutOn s.timers t = s.timers) := by
  refine ⟨timerInv_run (initState u) es (timerInv_init u), timerInv_step s e hinv, ?_⟩
  intro t hfree
  exact clearTimeoutOn_noop s.timers t hfree

/-- Witness for c7_single_timer on a trace with two consecutive failure
cycles (close, fire, close): the reachable state still has at most one
timer, and cancelling an id that is not outstanding changes nothing. -/
theorem c7_single_timer_witness :
    TimerInv (initState "u")
  ∧ TimerInv (run (initState "u")
      [Ev.start false, Ev.closeEv 0 0, Ev.timerFire 0 false, Ev.closeEv 1 0])
  ∧ clearTimeoutOn (initState "u").timers 7 = (initState "u").timers :=
  ⟨⟨by simp [initState], fun p hp => absurd hp (List.not_mem_nil p)⟩,
    (c7_single_timer "u" [Ev.start false, Ev.closeEv 0 0, Ev.timerFire 0 false, Ev.closeEv 1 0]
      (initState "u") Ev.stop
      ⟨by simp [initState], fun p hp => absurd hp (List.not_mem_nil p)⟩).1,
    (c7_single_timer "u" [] (initState "u") Ev.stop
      ⟨by simp [initState], fun p hp => absurd hp (List.not_mem_nil p)⟩).2.2 7
      (fun p hp => absurd hp (List.not_mem_nil p))⟩

/-- C8: a synchronous throw of the WebSocket constructor is caught (connect
is total and routes the failure locally): it publishes error status,
leaves the attempt counter and the socket set unchanged, creates no handle,
and schedules the retry at the fixed 1000ms fallback delay regardless of
the current attempt count, bypassing the backoff table; the same holds when
the failing connect is entered from the mount effect or a timer fire. -/
theorem c8_construction_failure (s : CState) (t : Nat) :
    (connect true s).status = Status.error
  ∧ (connect true s).attempt = s.attempt
  ∧ (connect true s).retryTimeout = some s.nextTimer
  ∧ (s.nextTimer, (1000 : ℚ)) ∈ (connect true s).timers
  ∧ (connect true s).wsCurrent = s.wsCurrent
  ∧ (connect true s).socks = s.socks
  ∧ (connect true s).nextHandle = s.nextHandle
  ∧ (step s (Ev.timerFire t true)).status = Status.error
  ∧ (step s (Ev.timerFire t true)).attempt = s.attempt
  ∧ (step s (Ev.start true)).status = Status.error
  ∧ (step s (Ev.start true)).attempt = s.attempt := by
  refine ⟨?_, ?_, ?_, ?_, ?_, ?_, ?_, ?_, ?_, ?_, ?_⟩ <;>
    simp [connect, schedule, step, clearPending]

/-- C9: the connection target is a pure function of the configured base
address and the window origin: one trailing slash is stripped, the origin
is used when the stripped base is empty, a leading http is rewritten to ws
(https to wss), and the path suffix /ws is appended.  The url field of the
state never changes across any event sequence, and every socket the
session creates is created with exactly that url: the target is never
re-resolved mid-session. -/
theorem c9_endpoint_resolution (b o u : String) (es : List Ev) :
    wsUrl b o
      = (if stripTrailingSlash b = "" then httpToWs o else httpToWs (stripTrailingSlash b))
          ++ "/ws"
  ∧ wsUrl "https://api.example.com/" o = "wss://api.example.com/ws"
  ∧ wsUrl "http://h:8000" o = "ws://h:8000/ws"
  ∧ wsUrl "" "https://page.example.org" = "wss://page.example.org/ws"
  ∧ (run (initState u) es).url = u
  ∧ ((run (initState u) es).created.all (fun v => v == u)) = true := by
  refine ⟨rfl, rfl, rfl, rfl, run_url (initState u) es, ?_⟩
  refine List.all_eq_true.mpr ?_
  intro v hv
  refine beq_iff_eq.mpr ?_
  exact run_created (initState u) es (fun w hw => absurd hw (List.not_mem_nil w)) v hv


end ChatRoom
